import Mathlib

/-!
Verification of the reference-building subsystem of cnvkit
(`cnvlib/reference.py`) against its natural-language specification.

The Python module is shallowly embedded: coverage tables become structures
of parallel columns, floating-point values become rationals, in-place
mutation of a sample's `log2` column becomes explicit value passing, and a
raised `RuntimeError` becomes an `Except.error` result.  External
collaborators that are not part of the embedded module (the `fix`
centering routines, `guess_xx`, `np.exp2`, the biweight midvariance
estimator, the chromosome sex labels) are abstracted as a context of
function parameters; the few external values whose behaviour the
specification pins down (the flat expected log2 per reference sex, the
biweight location estimator, the no-coverage floor, the bad-bin mask)
are modelled from the specification and marked as such.
-/

/-- A coverage table (`CopyNumArray` data) as read from one input sample:
parallel columns `chromosome`, `start`, `end`, `gene`, `log2`, with the
optional columns `depth` and `gc` present or absent for the whole table. -/
structure CNTable where
  chromosome : List String
  start : List Int
  «end» : List Int
  gene : List String
  log2 : List ℚ
  depth : Option (List ℚ)
  gc : Option (List ℚ)
deriving DecidableEq

/-- Number of rows (bins) of a table, `len(cnarr)` in the source. -/
def CNTable.size (t : CNTable) : Nat := t.chromosome.length

/-- Well-formedness of a table: all columns have the same number of rows. -/
def CNTable.WF (t : CNTable) : Prop :=
  t.start.length = t.size ∧ t.«end».length = t.size ∧
    t.gene.length = t.size ∧ t.log2.length = t.size

instance (t : CNTable) : Decidable t.WF := by
  unfold CNTable.WF; infer_instance

/-- The output reference table assembled by `combine_probes`: its column
names (`col_names` in the empty-input branch, the keys of `columns` in the
pooling branch), its data columns, and its sample-id metadata. -/
structure RefTable where
  colNames : List String
  chromosome : List String
  start : List Int
  «end» : List Int
  gene : List String
  log2 : List ℚ
  depth : List ℚ
  spread : List ℚ
  gc : Option (List ℚ)
  rmask : Option (List ℚ)
  sample_id : String
deriving DecidableEq

/-- `subseq.count c` of the Python source: occurrences of one character. -/
def charCount (s : String) (c : Char) : Nat := s.data.count c

/-- Direct embedding of `calculate_gc_lo(subseq)`: the GC fraction and the
lowercase (RepeatMasked) fraction of a string, counting only the bases
a/t/g/c in either case, and `(0, 0)` when no such base occurs. -/
def calculate_gc_lo (subseq : String) : ℚ × ℚ :=
  let cnt_at_lo := charCount subseq 'a' + charCount subseq 't'
  let cnt_at_up := charCount subseq 'A' + charCount subseq 'T'
  let cnt_gc_lo := charCount subseq 'g' + charCount subseq 'c'
  let cnt_gc_up := charCount subseq 'G' + charCount subseq 'C'
  let tot : ℚ := ((cnt_gc_up + cnt_gc_lo + cnt_at_up + cnt_at_lo : ℕ) : ℚ)
  if tot = 0 then (0, 0)
  else (((cnt_gc_lo + cnt_gc_up : ℕ) : ℚ) / tot, ((cnt_at_lo + cnt_gc_lo : ℕ) : ℚ) / tot)

/-- A valid base character: a, t, g or c in either case. -/
def isValidBase (c : Char) : Bool :=
  c = 'a' ∨ c = 't' ∨ c = 'g' ∨ c = 'c' ∨ c = 'A' ∨ c = 'T' ∨ c = 'G' ∨ c = 'C'

/-- A G or C base in either case. -/
def isGCBase (c : Char) : Bool := c = 'g' ∨ c = 'c' ∨ c = 'G' ∨ c = 'C'

/-- A lowercase (repeat-masked) base. -/
def isLowerBase (c : Char) : Bool := c = 'a' ∨ c = 't' ∨ c = 'g' ∨ c = 'c'

lemma countP_isGCBase (l : List Char) :
    l.countP isGCBase = l.count 'g' + l.count 'c' + l.count 'G' + l.count 'C' := by
  induction l with
  | nil => rfl
  | cons c l ih =>
    by_cases h1 : c = 'g' <;> by_cases h2 : c = 'c' <;> by_cases h3 : c = 'G' <;>
      by_cases h4 : c = 'C' <;>
      simp_all [List.countP_cons, List.count_cons, isGCBase] <;> omega

lemma countP_isLowerBase (l : List Char) :
    l.countP isLowerBase = l.count 'a' + l.count 't' + l.count 'g' + l.count 'c' := by
  induction l with
  | nil => rfl
  | cons c l ih =>
    by_cases h1 : c = 'a' <;> by_cases h2 : c = 't' <;> by_cases h3 : c = 'g' <;>
      by_cases h4 : c = 'c' <;>
      simp_all [List.countP_cons, List.count_cons, isLowerBase] <;> omega

lemma countP_isValidBase (l : List Char) :
    l.countP isValidBase =
      l.count 'G' + l.count 'C' + (l.count 'g' + l.count 'c') +
        (l.count 'A' + l.count 'T') + (l.count 'a' + l.count 't') := by
  induction l with
  | nil => rfl
  | cons c l ih =>
    by_cases h1 : c = 'a' <;> by_cases h2 : c = 't' <;> by_cases h3 : c = 'g' <;>
      by_cases h4 : c = 'c' <;> by_cases h5 : c = 'A' <;> by_cases h6 : c = 'T' <;>
      by_cases h7 : c = 'G' <;> by_cases h8 : c = 'C' <;>
      simp_all [List.countP_cons, List.count_cons, isValidBase] <;> omega

lemma countP_isGCBase_le_valid (l : List Char) :
    l.countP isGCBase ≤ l.countP isValidBase := by
  rw [countP_isGCBase, countP_isValidBase]; omega

lemma countP_isLowerBase_le_valid (l : List Char) :
    l.countP isLowerBase ≤ l.countP isValidBase := by
  rw [countP_isLowerBase, countP_isValidBase]; omega

lemma calculate_gc_lo_fst (s : String) :
    (calculate_gc_lo s).1 =
      (s.data.countP isGCBase : ℚ) / (s.data.countP isValidBase : ℚ) := by
  rw [calculate_gc_lo, countP_isGCBase, countP_isValidBase]
  simp only [charCount]
  by_cases h : s.data.count 'G' + s.data.count 'C' + (s.data.count 'g' + s.data.count 'c') +
      (s.data.count 'A' + s.data.count 'T') + (s.data.count 'a' + s.data.count 't') = 0
  · have h0 : ((s.data.count 'G' + s.data.count 'C' + (s.data.count 'g' + s.data.count 'c') +
        (s.data.count 'A' + s.data.count 'T') + (s.data.count 'a' + s.data.count 't') : ℕ) : ℚ) = 0 := by
      exact_mod_cast h
    rw [if_pos h0, h0]
    simp
  · have h0 : ((s.data.count 'G' + s.data.count 'C' + (s.data.count 'g' + s.data.count 'c') +
        (s.data.count 'A' + s.data.count 'T') + (s.data.count 'a' + s.data.count 't') : ℕ) : ℚ) ≠ 0 := by
      exact_mod_cast h
    rw [if_neg h0]
    push_cast
    ring_nf

lemma calculate_gc_lo_snd (s : String) :
    (calculate_gc_lo s).2 =
      (s.data.countP isLowerBase : ℚ) / (s.data.countP isValidBase : ℚ) := by
  rw [calculate_gc_lo, countP_isLowerBase, countP_isValidBase]
  simp only [charCount]
  by_cases h : s.data.count 'G' + s.data.count 'C' + (s.data.count 'g' + s.data.count 'c') +
      (s.data.count 'A' + s.data.count 'T') + (s.data.count 'a' + s.data.count 't') = 0
  · have h0 : ((s.data.count 'G' + s.data.count 'C' + (s.data.count 'g' + s.data.count 'c') +
        (s.data.count 'A' + s.data.count 'T') + (s.data.count 'a' + s.data.count 't') : ℕ) : ℚ) = 0 := by
      exact_mod_cast h
    rw [if_pos h0, h0]
    simp
  · have h0 : ((s.data.count 'G' + s.data.count 'C' + (s.data.count 'g' + s.data.count 'c') +
        (s.data.count 'A' + s.data.count 'T') + (s.data.count 'a' + s.data.count 't') : ℕ) : ℚ) ≠ 0 := by
      exact_mod_cast h
    rw [if_neg h0]
    push_cast
    ring_nf

/-- Claim C6: for every subsequence string the composition scanner returns
GC fraction = (count of G and C in either case) / (count of a,t,g,c in
either case) and repeat fraction = (count of lowercase a,t,g,c) / (same
denominator), both values lying in [0,1]; and when the string contains no
a/t/g/c character in either case it returns exactly (0, 0). -/
theorem calculate_gc_lo_correct (s : String) :
    (calculate_gc_lo s).1 = (s.data.countP isGCBase : ℚ) / (s.data.countP isValidBase : ℚ) ∧
    (calculate_gc_lo s).2 = (s.data.countP isLowerBase : ℚ) / (s.data.countP isValidBase : ℚ) ∧
    0 ≤ (calculate_gc_lo s).1 ∧ (calculate_gc_lo s).1 ≤ 1 ∧
    0 ≤ (calculate_gc_lo s).2 ∧ (calculate_gc_lo s).2 ≤ 1 ∧
    (s.data.countP isValidBase = 0 → calculate_gc_lo s = (0, 0)) := by
  refine ⟨calculate_gc_lo_fst s, calculate_gc_lo_snd s, ?_, ?_, ?_, ?_, ?_⟩
  · rw [calculate_gc_lo_fst]; positivity
  · rw [calculate_gc_lo_fst]
    rcases Nat.eq_zero_or_pos (s.data.countP isValidBase) with h | h
    · simp [h]
    · rw [div_le_one (by exact_mod_cast h)]
      exact_mod_cast countP_isGCBase_le_valid s.data
  · rw [calculate_gc_lo_snd]; positivity
  · rw [calculate_gc_lo_snd]
    rcases Nat.eq_zero_or_pos (s.data.countP isValidBase) with h | h
    · simp [h]
    · rw [div_le_one (by exact_mod_cast h)]
      exact_mod_cast countP_isLowerBase_le_valid s.data
  · intro h
    have h1 := calculate_gc_lo_fst s
    have h2 := calculate_gc_lo_snd s
    rw [h] at h1 h2
    simp at h1 h2
    exact Prod.ext h1 h2

/-- Witness for C6: the empty string has no valid base and the scanner
returns (0, 0) on it. -/
theorem calculate_gc_lo_correct_witness :
    ("".data.countP isValidBase = 0) ∧ calculate_gc_lo "" = (0, 0) :=
  ⟨by decide, (calculate_gc_lo_correct "").2.2.2.2.2.2 (by decide)⟩

/-- Claim C10: the composition scanner ignores every character outside
the valid bases: filtering a string down to its valid bases does not
change the result, and the result is invariant under permutation of the
string's characters. -/
theorem calculate_gc_lo_invariant (s t : String) :
    calculate_gc_lo (String.mk (s.data.filter isValidBase)) = calculate_gc_lo s ∧
    (s.data.Perm t.data → calculate_gc_lo s = calculate_gc_lo t) := by
  constructor
  · have hc : ∀ c : Char, isValidBase c →
        (String.mk (s.data.filter isValidBase)).data.count c = s.data.count c := by
      intro c hcv
      show (s.data.filter isValidBase).count c = s.data.count c
      exact List.count_filter hcv
    unfold calculate_gc_lo charCount
    rw [hc 'a' (by decide), hc 't' (by decide), hc 'g' (by decide), hc 'c' (by decide),
      hc 'A' (by decide), hc 'T' (by decide), hc 'G' (by decide), hc 'C' (by decide)]
  · intro hp
    unfold calculate_gc_lo charCount
    rw [hp.count_eq 'a', hp.count_eq 't', hp.count_eq 'g', hp.count_eq 'c',
      hp.count_eq 'A', hp.count_eq 'T', hp.count_eq 'G', hp.count_eq 'C']

/-- Witness for C10: "aG" and "Ga" are permutations of each other and the
scanner agrees on them. -/
theorem calculate_gc_lo_invariant_witness :
    ("aG".data.Perm "Ga".data) ∧ calculate_gc_lo "aG" = calculate_gc_lo "Ga" :=
  ⟨by decide, (calculate_gc_lo_invariant "aG" "Ga").2 (by decide)⟩

/-- External collaborators of `combine_probes` that live outside the
embedded module (`fix.center_all`, `fix.center_by_window`,
`fix.get_edge_bias` at the fixed insert size, `CopyNumArray.guess_xx`,
`np.exp2`, `descriptives.biweight_midvariance`, and the table's
sex-chromosome labels), abstracted as function parameters. -/
structure Ctx where
  center_all : Bool → List ℚ → List ℚ
  center_by_window : List ℚ → ℚ → List ℚ → List ℚ
  get_edge_bias : CNTable → List ℚ
  guess_xx : CNTable → Bool
  exp2 : ℚ → ℚ
  biweight_midvariance : List ℚ → ℚ → ℚ
  chr_x_label : String
  chr_y_label : String

/-- Modelled from the spec: the "no-coverage" floor of the low-coverage
skip check; in the source this threshold is `params.NULL_LOG2_COVERAGE -
params.MIN_REF_COVERAGE`, two constants of the external `params` module. -/
def noCoverageFloor : ℚ := -15

/-- Modelled from the spec (and the docstring of `shift_sex_chroms`): the
expected flat log2 of one bin given the declared reference sex, the
external `cnarr1.expect_flat_log2(is_male_reference)`.  Reference values:
XY reference: chrX -1, chrY -1; XX reference: chrX 0, chrY -1; autosomes
always 0. -/
def expect_flat_log2 (is_male_reference : Bool) (isX isY : Bool) : ℚ :=
  if isY then -1 else if isX then (if is_male_reference then -1 else 0) else 0

/-- Per-bin flat coverage baseline of the primary sample, the source's
`flat_coverage = cnarr1.expect_flat_log2(is_male_reference)`. -/
def flatCoverage (ctx : Ctx) (is_male_reference : Bool) (t : CNTable) : List ℚ :=
  t.chromosome.map fun c =>
    expect_flat_log2 is_male_reference (c == ctx.chr_x_label) (c == ctx.chr_y_label)

/-- Embedding of the nested function `shift_sex_chroms(cnarr)`: add the
flat baseline to every bin, then for an XX sample pin every chrY bin's
log2 to -1.0, and for an XY sample add +1.0 on the chrX and chrY bins.
The chromosome masks `is_chr_x` / `is_chr_y` come from the primary
sample's chromosome column. -/
def shift_sex_chroms (ctx : Ctx) (is_male_reference : Bool) (is_xx : Bool)
    (chroms1 : List String) (log2 : List ℚ) : List ℚ :=
  List.zipWith (fun c v =>
    let v1 := v + expect_flat_log2 is_male_reference (c == ctx.chr_x_label) (c == ctx.chr_y_label)
    if is_xx then (if c == ctx.chr_y_label then (-1 : ℚ) else v1)
    else (if c == ctx.chr_x_label || c == ctx.chr_y_label then v1 + 1 else v1)) chroms1 log2

/-- The sample's log2 column right after `center_all` and
`shift_sex_chroms`, i.e. what the low-coverage check inside
`bias_correct_coverage` reads back from the mutated table.  The XX flag
is the declared `is_female_sample` when given, else `guess_xx` on the
centered table. -/
def shifted_log2 (ctx : Ctx) (is_male_reference : Bool) (is_female_sample : Option Bool)
    (skip_low : Bool) (chroms1 : List String) (cnarr : CNTable) : List ℚ :=
  let l1 := ctx.center_all skip_low cnarr.log2
  let is_xx := match is_female_sample with
    | some b => b
    | none => ctx.guess_xx { cnarr with log2 := l1 }
  shift_sex_chroms ctx is_male_reference is_xx chroms1 l1

/-- Embedding of the nested function `bias_correct_coverage(cnarr)`:
center the sample, shift its sex chromosomes, then either skip every
bias correction with a warning (the returned flag is `true`) when the
count of bins with log2 above the no-coverage floor is at most half the
bin count, or apply the GC, RepeatMasker and edge corrections that are
enabled and available.  Returns the sample's final log2 column together
with the warned/skipped flag. -/
def bias_correct_coverage (ctx : Ctx) (is_male_reference : Bool)
    (is_female_sample : Option Bool) (skip_low fix_gc fix_edge fix_rmask : Bool)
    (gcCol rmaskCol : Option (List ℚ)) (edge_bias : List ℚ)
    (chroms1 : List String) (cnarr : CNTable) : List ℚ × Bool :=
  let l2 := shifted_log2 ctx is_male_reference is_female_sample skip_low chroms1 cnarr
  if l2.countP (fun v => decide (noCoverageFloor < v)) ≤ l2.length / 2 then
    (l2, true)
  else
    let l3 := match gcCol with
      | some g => if fix_gc then ctx.center_by_window l2 (1 / 10) g else l2
      | none => l2
    let l4 := match rmaskCol with
      | some r => if fix_rmask then ctx.center_by_window l3 (1 / 10) r else l3
      | none => l3
    let l5 := if fix_edge then ctx.center_by_window l4 (1 / 10) edge_bias else l4
    (l5, false)

/-- The per-sample depth-like signal appended to `all_depths`: the raw
`depth` column when the table has one, else `np.exp2` applied to the
log2 column. -/
def depthSignal (ctx : Ctx) (t : CNTable) : List ℚ :=
  match t.depth with
  | some d => d
  | none => t.log2.map ctx.exp2

/-- Embedding of `get_fasta_stats`: per-bin GC and RepeatMasker content
computed by `calculate_gc_lo` on the extracted subsequences; the genome
sequence source is modelled as the list of per-bin subsequence strings. -/
def get_fasta_stats (seqs : List String) : List ℚ × List ℚ :=
  (seqs.map fun s => (calculate_gc_lo s).1, seqs.map fun s => (calculate_gc_lo s).2)

/-- The optional `gc` and `rmask` entries of the `columns` dict after the
composition step of `combine_probes`: scan the sequence source when one
is given and GC or RepeatMasker correction is requested, else fall back
to the primary sample's stored `gc` column when GC correction is
requested. -/
def gcRmaskColumns (fa_fname : Option (List String)) (fix_gc fix_rmask : Bool)
    (cnarr1 : CNTable) : Option (List ℚ) × Option (List ℚ) :=
  match fa_fname with
  | some seqs =>
    if fix_rmask || fix_gc then
      ((if fix_gc then some (get_fasta_stats seqs).1 else none),
       (if fix_rmask then some (get_fasta_stats seqs).2 else none))
    else ((if cnarr1.gc.isSome && fix_gc then cnarr1.gc else none), none)
  | none => ((if cnarr1.gc.isSome && fix_gc then cnarr1.gc else none), none)

/-- The positional bin-identity comparison of the mismatch check in the
loop over additional samples: equal bin count and equal `chromosome`,
`start`, `end` and `gene` columns. -/
def probesMatch (t1 tx : CNTable) : Bool :=
  t1.size == tx.size && t1.chromosome == tx.chromosome && t1.start == tx.start &&
    t1.«end» == tx.«end» && t1.gene == tx.gene

/-- The empty reference returned when the primary sample has no bins:
base columns, `gc` when the primary carries a gc column or a sequence
source was supplied, `rmask` when a sequence source was supplied. -/
def emptyReference (cnarr1 : CNTable) (fa_fname : Option (List String)) : RefTable :=
  { colNames := ["chromosome", "start", "end", "gene", "log2", "depth"]
      ++ (if cnarr1.gc.isSome || fa_fname.isSome then ["gc"] else [])
      ++ (if fa_fname.isSome then ["rmask"] else []) ++ ["spread"]
    chromosome := [], start := [], «end» := [], gene := [], log2 := [], depth := []
    spread := [], gc := none, rmask := none, sample_id := "reference" }

/-- Insertion of one value into a sorted list of rationals. -/
def insertSorted (x : ℚ) : List ℚ → List ℚ
  | [] => [x]
  | y :: ys => if x ≤ y then x :: y :: ys else y :: insertSorted x ys

/-- Insertion sort on rationals. -/
def sortQ : List ℚ → List ℚ
  | [] => []
  | x :: xs => insertSorted x (sortQ xs)

/-- Absolute value on rationals, kept as a plain conditional. -/
def qabs (x : ℚ) : ℚ := if x < 0 then -x else x

/-- Modelled from the spec: the median of a list of values, the initial
estimate of the external `descriptives.biweight_location`. -/
def median (xs : List ℚ) : ℚ :=
  let s := sortQ xs
  let n := xs.length
  if n = 0 then 0
  else if n % 2 = 1 then s.getD (n / 2) 0
  else (s.getD (n / 2 - 1) 0 + s.getD (n / 2) 0) / 2

/-- The Tukey biweight kernel weight of a scaled residual. -/
def tukeyWeight (u : ℚ) : ℚ := if qabs u < 1 then (1 - u ^ 2) ^ 2 else 0

/-- One iteratively-reweighted step of the biweight location estimator:
residuals against the current estimate, scaled by the median absolute
deviation, down-weighted by the Tukey kernel; degenerate scales or
all-zero weights leave the estimate unchanged. -/
def biweightStep (xs : List ℚ) (m : ℚ) : ℚ :=
  let d := xs.map (fun x => x - m)
  let mad := median (d.map qabs)
  if mad = 0 then m
  else
    let ws := d.map fun di => tukeyWeight (di / (6 * mad))
    let sw := ws.sum
    if sw = 0 then m
    else m + (List.zipWith (fun w di => w * di) ws d).sum / sw

/-- Bounded iteration of a step function. -/
def iterQ (f : ℚ → ℚ) : Nat → ℚ → ℚ
  | 0, x => x
  | n + 1, x => iterQ f n (f x)

/-- Modelled from the spec: the external `descriptives.biweight_location`,
an iteratively reweighted M-estimator of central tendency with a Tukey
biweight kernel, started at the median and stopped after a fixed
iteration cap. -/
def biweight_location (xs : List ℚ) : ℚ := iterQ (biweightStep xs) 10 (median xs)

/-- The final log2 column contributed by one sample inside
`combine_probes`, with the composition columns and the edge-bias
covariate computed from the primary sample. -/
def correctedLog2 (ctx : Ctx) (fa_fname : Option (List String))
    (is_male_reference : Bool) (is_female_sample : Option Bool)
    (skip_low fix_gc fix_edge fix_rmask : Bool) (cnarr1 t : CNTable) : List ℚ :=
  (bias_correct_coverage ctx is_male_reference is_female_sample skip_low fix_gc fix_edge
    fix_rmask (gcRmaskColumns fa_fname fix_gc fix_rmask cnarr1).1
    (gcRmaskColumns fa_fname fix_gc fix_rmask cnarr1).2
    (ctx.get_edge_bias cnarr1) cnarr1.chromosome t).1

/-- The `all_depths` matrix of `combine_probes`: one depth-like row per
input sample, primary first. -/
def allDepths (ctx : Ctx) (cnarr1 : CNTable) (rest : List CNTable) : List (List ℚ) :=
  (cnarr1 :: rest).map (depthSignal ctx)

/-- The `all_coverages` matrix of `combine_probes`: the flat pseudo-sample
row followed by one bias-corrected log2 row per input sample. -/
def allCoverages (ctx : Ctx) (cnarr1 : CNTable) (rest : List CNTable)
    (fa_fname : Option (List String)) (is_male_reference : Bool)
    (is_female_sample : Option Bool) (skip_low fix_gc fix_edge fix_rmask : Bool) :
    List (List ℚ) :=
  flatCoverage ctx is_male_reference cnarr1 ::
    (cnarr1 :: rest).map (correctedLog2 ctx fa_fname is_male_reference is_female_sample
      skip_low fix_gc fix_edge fix_rmask cnarr1)

/-- Column `i` of a per-sample matrix, the argument column handed to the
per-bin estimators by `np.apply_along_axis(..., 0, ...)`. -/
def poolAt (rows : List (List ℚ)) (i : Nat) : List ℚ := rows.map fun r => r.getD i 0

/-- The reference assembled on the pooling path of `combine_probes`: the
primary sample's bin identity columns, the per-bin biweight location of
the coverage and depth matrices, the per-bin biweight midvariance of the
coverage matrix, and the collected composition columns. -/
def pooledReference (ctx : Ctx) (cnarr1 : CNTable) (rest : List CNTable)
    (fa_fname : Option (List String)) (is_male_reference : Bool)
    (is_female_sample : Option Bool) (skip_low fix_gc fix_edge fix_rmask : Bool) :
    RefTable :=
  { colNames := (if (gcRmaskColumns fa_fname fix_gc fix_rmask cnarr1).1.isSome
        then ["gc"] else [])
      ++ (if (gcRmaskColumns fa_fname fix_gc fix_rmask cnarr1).2.isSome
        then ["rmask"] else [])
      ++ ["chromosome", "start", "end", "gene", "log2", "depth", "spread"]
    chromosome := cnarr1.chromosome, start := cnarr1.start, «end» := cnarr1.«end»
    gene := cnarr1.gene
    log2 := (List.range cnarr1.size).map fun i =>
      biweight_location (poolAt (allCoverages ctx cnarr1 rest fa_fname is_male_reference
        is_female_sample skip_low fix_gc fix_edge fix_rmask) i)
    depth := (List.range cnarr1.size).map fun i =>
      biweight_location (poolAt (allDepths ctx cnarr1 rest) i)
    spread := (List.range cnarr1.size).map fun i =>
      ctx.biweight_midvariance
        (poolAt (allCoverages ctx cnarr1 rest fa_fname is_male_reference
          is_female_sample skip_low fix_gc fix_edge fix_rmask) i)
        (biweight_location (poolAt (allCoverages ctx cnarr1 rest fa_fname is_male_reference
          is_female_sample skip_low fix_gc fix_edge fix_rmask) i))
    gc := (gcRmaskColumns fa_fname fix_gc fix_rmask cnarr1).1
    rmask := (gcRmaskColumns fa_fname fix_gc fix_rmask cnarr1).2
    sample_id := "reference" }

/-- Embedding of `combine_probes`.  The input files are modelled as the
already-read primary table plus the list of additional tables; the
sequence source as the optional list of per-bin subsequences.  An empty
primary short-circuits to the empty reference; a bin mismatch of any
additional sample raises (`Except.error`); otherwise the corrected
samples are pooled. -/
def combine_probes (ctx : Ctx) (cnarr1 : CNTable) (rest : List CNTable)
    (fa_fname : Option (List String)) (is_male_reference : Bool)
    (is_female_sample : Option Bool) (skip_low fix_gc fix_edge fix_rmask : Bool) :
    Except String RefTable :=
  if cnarr1.size = 0 then .ok (emptyReference cnarr1 fa_fname)
  else if rest.all (probesMatch cnarr1) then
    .ok (pooledReference ctx cnarr1 rest fa_fname is_male_reference is_female_sample
      skip_low fix_gc fix_edge fix_rmask)
  else .error "probes do not match those in the first input"

lemma iterQ_fixed {f : ℚ → ℚ} {x : ℚ} (h : f x = x) : ∀ n, iterQ f n x = x
  | 0 => rfl
  | n + 1 => by rw [iterQ, h]; exact iterQ_fixed h n

lemma median_pair (x y : ℚ) : median [x, y] = (x + y) / 2 := by
  by_cases h : x ≤ y
  · simp [median, sortQ, insertSorted, h]
  · simp [median, sortQ, insertSorted, h]
    ring

lemma median_single (x : ℚ) : median [x] = x := by
  simp [median, sortQ, insertSorted]

lemma qabs_neg (x : ℚ) : qabs (-x) = qabs x := by
  unfold qabs
  split_ifs <;> linarith

lemma tukeyWeight_neg (u : ℚ) : tukeyWeight (-u) = tukeyWeight u := by
  unfold tukeyWeight
  rw [qabs_neg, show (-u) ^ 2 = u ^ 2 from by ring]

lemma biweightStep_pair (x y : ℚ) : biweightStep [x, y] ((x + y) / 2) = (x + y) / 2 := by
  have hd2 : y - (x + y) / 2 = -(x - (x + y) / 2) := by ring
  have hmed : median [qabs (x - (x + y) / 2), qabs (x - (x + y) / 2)] =
      qabs (x - (x + y) / 2) := by
    rw [median_pair]; ring
  simp only [biweightStep, List.map_cons, List.map_nil, hd2, qabs_neg, hmed, neg_div,
    tukeyWeight_neg, List.zipWith_cons_cons, List.zipWith_nil_right, List.sum_cons,
    List.sum_nil]
  set d := x - (x + y) / 2 with hd
  set w := tukeyWeight (d / (6 * qabs d)) with hw
  by_cases h0 : qabs d = 0
  · rw [if_pos h0]
  · rw [if_neg h0]
    by_cases hsw : w + (w + 0) = 0
    · rw [if_pos hsw]
    · rw [if_neg hsw]
      rw [show w * d + (w * -d + 0) = 0 from by ring, zero_div, add_zero]

lemma biweightStep_single (x : ℚ) : biweightStep [x] x = x := by
  simp only [biweightStep, List.map_cons, List.map_nil, sub_self]
  have h0 : qabs 0 = 0 := by unfold qabs; norm_num
  rw [show median [qabs 0] = qabs 0 from median_single _, h0, if_pos rfl]

lemma biweight_location_pair (x y : ℚ) : biweight_location [x, y] = (x + y) / 2 := by
  rw [biweight_location, median_pair]
  exact iterQ_fixed (biweightStep_pair x y) 10

lemma biweight_location_single (x : ℚ) : biweight_location [x] = x := by
  rw [biweight_location, median_single]
  exact iterQ_fixed (biweightStep_single x) 10

lemma midpoint_mem_interval (a b : ℚ) : min a b ≤ (a + b) / 2 ∧ (a + b) / 2 ≤ max a b := by
  rcases le_total a b with h | h <;> constructor <;> simp [min_def, max_def, h] <;> linarith

lemma countP_not_add {α} (p : α → Bool) (l : List α) :
    l.countP (fun a => !p a) + l.countP p = l.length := by
  induction l with
  | nil => rfl
  | cons x l ih => by_cases h : p x <;> simp [List.countP_cons, h] <;> omega

/-- A concrete collaborator context used by the witnesses: identity
centering functions, trivial guesses, and conventional chrX/chrY labels. -/
def ctx0 : Ctx :=
  { center_all := fun _ l => l
    center_by_window := fun l _ _ => l
    get_edge_bias := fun _ => []
    guess_xx := fun _ => false
    exp2 := fun _ => 1
    biweight_midvariance := fun _ _ => 0
    chr_x_label := "chrX"
    chr_y_label := "chrY" }

/-- Claim C5: in sex-chromosome normalization an XX sample's chrY bins
are set to exactly -1.0 regardless of their prior value and of the
declared reference sex, and an XY sample against a male-declared
reference gets no net shift on chrX and chrY bins beyond the flat
baseline: the +1.0 shift exactly cancels the baseline's -1 there. -/
theorem shift_sex_chroms_correct (ctx : Ctx) (is_male_reference is_xx : Bool)
    (chroms1 : List String) (log2 : List ℚ) (i : Nat)
    (h1 : i < chroms1.length) (h2 : i < log2.length) :
    (is_xx = true → chroms1.getD i "" = ctx.chr_y_label →
      (shift_sex_chroms ctx is_male_reference is_xx chroms1 log2).getD i 0 = -1) ∧
    (is_xx = false → is_male_reference = true →
      (chroms1.getD i "" = ctx.chr_x_label ∨ chroms1.getD i "" = ctx.chr_y_label) →
      (shift_sex_chroms ctx is_male_reference is_xx chroms1 log2).getD i 0 =
        log2.getD i 0) := by
  have hz : i < (shift_sex_chroms ctx is_male_reference is_xx chroms1 log2).length := by
    unfold shift_sex_chroms
    rw [List.length_zipWith _ chroms1 log2]
    omega
  have hgc : chroms1.getD i "" = chroms1[i] := List.getD_eq_getElem chroms1 "" h1
  have hgl : log2.getD i 0 = log2[i] := List.getD_eq_getElem log2 0 h2
  have hgs : (shift_sex_chroms ctx is_male_reference is_xx chroms1 log2).getD i 0 =
      (shift_sex_chroms ctx is_male_reference is_xx chroms1 log2)[i] :=
    List.getD_eq_getElem _ 0 hz
  rw [hgs, hgc, hgl]
  unfold shift_sex_chroms
  rw [List.getElem_zipWith]
  constructor
  · intro hxx hy
    simp [hxx, hy]
  · intro hxx hmr hxy
    by_cases hcy : chroms1[i] = ctx.chr_y_label
    · simp [hxx, hmr, hcy, expect_flat_log2]
    · have hcx : chroms1[i] = ctx.chr_x_label := by tauto
      simp [hxx, hmr, hcx, hcy, expect_flat_log2]

/-- Witness for C5 at concrete inputs: a chrY bin of an XX sample lands
at -1, and a chrX bin of an XY sample against a male reference keeps its
value. -/
theorem shift_sex_chroms_correct_witness :
    (shift_sex_chroms ctx0 false true ["chrY"] [(5 : ℚ)]).getD 0 0 = -1 ∧
    (shift_sex_chroms ctx0 true false ["chrX"] [(5 : ℚ)]).getD 0 0 =
      [(5 : ℚ)].getD 0 0 :=
  ⟨(shift_sex_chroms_correct ctx0 false true ["chrY"] [(5 : ℚ)] 0 (by decide)
      (by decide)).1 rfl rfl,
   (shift_sex_chroms_correct ctx0 true false ["chrX"] [(5 : ℚ)] 0 (by decide)
      (by decide)).2 rfl rfl (Or.inl rfl)⟩

/-- Claim C4 (amended): for one sample, the GC, repeat-fraction and
edge-bias corrections are all skipped with a warning exactly when at
least half of the sample's bins (counted on the sex-normalized,
baseline-shifted log2 values) have log2 at or below the no-coverage
floor; when skipped the sample contributes its sex-normalized,
baseline-shifted values unchanged. -/
theorem bias_correct_coverage_skip_iff (ctx : Ctx) (imr : Bool) (isFem : Option Bool)
    (skip_low fix_gc fix_edge fix_rmask : Bool) (gcCol rmaskCol : Option (List ℚ))
    (edge_bias : List ℚ) (chroms1 : List String) (cnarr : CNTable) :
    ((bias_correct_coverage ctx imr isFem skip_low fix_gc fix_edge fix_rmask gcCol
        rmaskCol edge_bias chroms1 cnarr).2 = true ↔
      2 * (shifted_log2 ctx imr isFem skip_low chroms1 cnarr).countP
          (fun v => decide (v ≤ noCoverageFloor)) ≥
        (shifted_log2 ctx imr isFem skip_low chroms1 cnarr).length) ∧
    ((bias_correct_coverage ctx imr isFem skip_low fix_gc fix_edge fix_rmask gcCol
        rmaskCol edge_bias chroms1 cnarr).2 = true →
      (bias_correct_coverage ctx imr isFem skip_low fix_gc fix_edge fix_rmask gcCol
        rmaskCol edge_bias chroms1 cnarr).1 =
        shifted_log2 ctx imr isFem skip_low chroms1 cnarr) := by
  have hpred : (fun v : ℚ => decide (v ≤ noCoverageFloor)) =
      (fun v : ℚ => !decide (noCoverageFloor < v)) := by
    funext v
    by_cases h : v ≤ noCoverageFloor
    · simp [h, not_lt.mpr h]
    · simp [h, lt_of_not_le h]
  rw [hpred]
  set l2 := shifted_log2 ctx imr isFem skip_low chroms1 cnarr with hl2
  have hsum := countP_not_add (fun v : ℚ => decide (noCoverageFloor < v)) l2
  by_cases hc : l2.countP (fun v => decide (noCoverageFloor < v)) ≤ l2.length / 2
  · refine ⟨⟨fun _ => by omega, fun _ => ?_⟩, fun _ => ?_⟩
    · simp only [bias_correct_coverage, ← hl2, if_pos hc]
    · simp only [bias_correct_coverage, ← hl2, if_pos hc]
  · constructor
    · constructor
      · intro h
        exfalso
        revert h
        simp only [bias_correct_coverage, ← hl2, if_neg hc]
        intro h
        simp at h
      · intro h
        exfalso
        omega
    · intro h
      exfalso
      revert h
      simp only [bias_correct_coverage, ← hl2, if_neg hc]
      intro h
      simp at h

/-- A two-bin autosomal sample whose second bin sits far below the
no-coverage floor: exactly half of its bins are low. -/
def Tlow : CNTable :=
  { chromosome := ["chr1", "chr1"], start := [0, 100], «end» := [100, 200]
    gene := ["g1", "g2"], log2 := [0, -100], depth := none, gc := none }

lemma Tlow_shifted :
    shifted_log2 ctx0 true (some false) false ["chr1", "chr1"] Tlow = [0, -100] := by
  simp [shifted_log2, ctx0, Tlow, shift_sex_chroms, expect_flat_log2]

lemma Tlow_warned :
    (bias_correct_coverage ctx0 true (some false) false true true true
      (some [1/2, 1/2]) (some [1/2, 1/2]) [] ["chr1", "chr1"] Tlow).2 = true := by
  simp only [bias_correct_coverage, Tlow_shifted]
  norm_num [List.countP_cons, noCoverageFloor]

/-- Counterexample to claim C4 as stated: on a two-bin sample with
exactly one bin at or below the no-coverage floor the code skips the
corrections and warns, although not more than half of the bins are low;
the code's threshold is "at least half", not "more than half". -/
theorem bias_correct_half_low_cex :
    ¬ (((bias_correct_coverage ctx0 true (some false) false true true true
          (some [1/2, 1/2]) (some [1/2, 1/2]) [] ["chr1", "chr1"] Tlow).2 = true) ↔
        2 * (shifted_log2 ctx0 true (some false) false ["chr1", "chr1"] Tlow).countP
            (fun v => decide (v ≤ noCoverageFloor)) >
          (shifted_log2 ctx0 true (some false) false ["chr1", "chr1"] Tlow).length) := by
  intro hiff
  have h2 := hiff.mp Tlow_warned
  rw [Tlow_shifted] at h2
  norm_num [List.countP_cons, noCoverageFloor] at h2

/-- Witness for C4 (amended) at a concrete input: the half-low sample is
skipped with a warning and contributes its shifted values unchanged. -/
theorem bias_correct_coverage_skip_iff_witness :
    ((bias_correct_coverage ctx0 true (some false) false true true true
        (some [1/2, 1/2]) (some [1/2, 1/2]) [] ["chr1", "chr1"] Tlow).2 = true) ∧
    (bias_correct_coverage ctx0 true (some false) false true true true
        (some [1/2, 1/2]) (some [1/2, 1/2]) [] ["chr1", "chr1"] Tlow).1 =
      shifted_log2 ctx0 true (some false) false ["chr1", "chr1"] Tlow :=
  ⟨Tlow_warned,
   (bias_correct_coverage_skip_iff ctx0 true (some false) false true true true
      (some [1/2, 1/2]) (some [1/2, 1/2]) [] ["chr1", "chr1"] Tlow).2 Tlow_warned⟩

/-- Claim C2: an empty primary input is a terminal success path:
`combine_probes` returns an empty reference tagged "reference" with the
base schema columns, where gc and rmask follow the sequence source; in
particular with a sequence source supplied the columns are exactly
chromosome, start, end, gene, log2, depth, gc, rmask, spread. -/
theorem combine_probes_empty_schema (ctx : Ctx) (cnarr1 : CNTable) (rest : List CNTable)
    (fa_fname : Option (List String)) (imr : Bool) (isFem : Option Bool)
    (skip_low fix_gc fix_edge fix_rmask : Bool) (h : cnarr1.size = 0) :
    ∃ r, combine_probes ctx cnarr1 rest fa_fname imr isFem skip_low fix_gc fix_edge
        fix_rmask = .ok r ∧
      r.sample_id = "reference" ∧ r.chromosome = [] ∧ r.log2 = [] ∧ r.depth = [] ∧
      (fa_fname.isSome = true →
        r.colNames = ["chromosome", "start", "end", "gene", "log2", "depth", "gc",
          "rmask", "spread"]) ∧
      (fa_fname = none → cnarr1.gc = none →
        r.colNames = ["chromosome", "start", "end", "gene", "log2", "depth",
          "spread"]) := by
  refine ⟨emptyReference cnarr1 fa_fname, ?_, rfl, rfl, rfl, rfl, ?_, ?_⟩
  · rw [combine_probes, if_pos h]
  · intro hfa
    simp [emptyReference, hfa]
  · intro hfa hgc
    simp [emptyReference, hfa, hgc]

/-- A primary table with no bins and no optional columns. -/
def emptyT : CNTable :=
  { chromosome := [], start := [], «end» := [], gene := [], log2 := []
    depth := none, gc := none }

/-- Witness for C2: building from an empty primary with a sequence
source supplied yields exactly the nine-column schema. -/
theorem combine_probes_empty_schema_witness :
    ∃ r, combine_probes ctx0 emptyT [] (some []) true none true true true true = .ok r ∧
      r.sample_id = "reference" ∧ r.chromosome = [] ∧ r.log2 = [] ∧ r.depth = [] ∧
      r.colNames = ["chromosome", "start", "end", "gene", "log2", "depth", "gc",
        "rmask", "spread"] := by
  obtain ⟨r, h1, h2, h3, h4, h5, h6, _⟩ :=
    combine_probes_empty_schema ctx0 emptyT [] (some []) true none true true true true rfl
  exact ⟨r, h1, h2, h3, h4, h5, h6 rfl⟩

/-- Claim C9: with an empty primary that already carries a gc column, the
empty reference includes a gc column even with no sequence source and
regardless of the GC-correction flag, while rmask is included exactly
when a sequence source was supplied. -/
theorem combine_probes_empty_gc_column (ctx : Ctx) (cnarr1 : CNTable)
    (rest : List CNTable) (fa_fname : Option (List String)) (imr : Bool)
    (isFem : Option Bool) (skip_low fix_gc fix_edge fix_rmask : Bool)
    (h : cnarr1.size = 0) (hgc : cnarr1.gc.isSome = true) :
    ∃ r, combine_probes ctx cnarr1 rest fa_fname imr isFem skip_low fix_gc fix_edge
        fix_rmask = .ok r ∧
      "gc" ∈ r.colNames ∧ ("rmask" ∈ r.colNames ↔ fa_fname.isSome = true) := by
  refine ⟨emptyReference cnarr1 fa_fname, ?_, ?_, ?_⟩
  · rw [combine_probes, if_pos h]
  · simp [emptyReference, hgc]
  · rcases fa_fname with _ | seqs
    · simp [emptyReference]
    · simp [emptyReference]

/-- A primary table with no bins that carries a gc column. -/
def emptyTgc : CNTable :=
  { chromosome := [], start := [], «end» := [], gene := [], log2 := []
    depth := none, gc := some [] }

/-- Witness for C9: no sequence source, GC correction not requested, yet
the stored gc column keeps "gc" in the schema, and "rmask" is absent. -/
theorem combine_probes_empty_gc_column_witness :
    ∃ r, combine_probes ctx0 emptyTgc [] none true none false false false false = .ok r ∧
      "gc" ∈ r.colNames ∧
      ("rmask" ∈ r.colNames ↔ (none : Option (List String)).isSome = true) :=
  combine_probes_empty_gc_column ctx0 emptyTgc [] none true none false false false false
    rfl rfl

/-- The claim's row-level mismatch condition between the primary sample
and one additional sample: different bin count, or a difference at some
row position in chromosome, start, end or gene. -/
def binsMismatch (t1 tx : CNTable) : Prop :=
  t1.size ≠ tx.size ∨ ∃ i ∈ List.range t1.size,
    (t1.chromosome.getD i "" ≠ tx.chromosome.getD i "" ∨
     t1.start.getD i 0 ≠ tx.start.getD i 0 ∨
     t1.«end».getD i 0 ≠ tx.«end».getD i 0 ∨
     t1.gene.getD i "" ≠ tx.gene.getD i "")

instance (t1 tx : CNTable) : Decidable (binsMismatch t1 tx) := by
  unfold binsMismatch; infer_instance

lemma column_mismatch {α : Type} (d : α) (l1 l2 : List α) (n : Nat)
    (h1 : l1.length = n) (h2 : l2.length = n) (hne : l1 ≠ l2) :
    ∃ i ∈ List.range n, l1.getD i d ≠ l2.getD i d := by
  by_contra hall
  push_neg at hall
  apply hne
  apply List.ext_getElem (by omega)
  intro i hi1 hi2
  have hi := hall i (List.mem_range.mpr (by omega))
  rwa [List.getD_eq_getElem l1 d hi1, List.getD_eq_getElem l2 d hi2] at hi

lemma probesMatch_false_iff (t1 tx : CNTable) (h1 : t1.WF) (hx : tx.WF) :
    probesMatch t1 tx = false ↔ binsMismatch t1 tx := by
  by_cases hs : t1.size = tx.size
  · have hmatch : probesMatch t1 tx = true ↔
        (t1.chromosome = tx.chromosome ∧ t1.start = tx.start ∧
          t1.«end» = tx.«end» ∧ t1.gene = tx.gene) := by
      simp [probesMatch, hs, Bool.and_eq_true, beq_iff_eq]
      tauto
    constructor
    · intro hf
      have hnm : ¬(t1.chromosome = tx.chromosome ∧ t1.start = tx.start ∧
          t1.«end» = tx.«end» ∧ t1.gene = tx.gene) := by
        intro hcc
        rw [hmatch.mpr hcc] at hf
        cases hf
      right
      rcases not_and_or.mp hnm with hne | hrest
      · obtain ⟨i, hi, hd⟩ := column_mismatch "" t1.chromosome tx.chromosome t1.size rfl
          (by rw [show tx.chromosome.length = tx.size from rfl, hs]) hne
        exact ⟨i, hi, Or.inl hd⟩
      · rcases not_and_or.mp hrest with hne | hrest2
        · obtain ⟨i, hi, hd⟩ := column_mismatch 0 t1.start tx.start t1.size h1.1
            (by rw [hx.1, hs]) hne
          exact ⟨i, hi, Or.inr (Or.inl hd)⟩
        · rcases not_and_or.mp hrest2 with hne | hne
          · obtain ⟨i, hi, hd⟩ := column_mismatch 0 t1.«end» tx.«end» t1.size h1.2.1
              (by rw [hx.2.1, hs]) hne
            exact ⟨i, hi, Or.inr (Or.inr (Or.inl hd))⟩
          · obtain ⟨i, hi, hd⟩ := column_mismatch "" t1.gene tx.gene t1.size h1.2.2.1
              (by rw [hx.2.2.1, hs]) hne
            exact ⟨i, hi, Or.inr (Or.inr (Or.inr hd))⟩
    · intro hm
      rcases hm with hsz | ⟨i, hi, hd⟩
      · exact absurd hs hsz
      · rw [Bool.eq_false_iff]
        intro ht
        obtain ⟨hcc, hss, hee, hgg⟩ := hmatch.mp ht
        rcases hd with hd | hd | hd | hd
        · exact hd (by rw [hcc])
        · exact hd (by rw [hss])
        · exact hd (by rw [hee])
        · exact hd (by rw [hgg])
  · constructor
    · intro _
      exact Or.inl hs
    · intro _
      simp [probesMatch, beq_eq_false_iff_ne, hs]

/-- Claim C1: with a nonempty primary sample the build fails with an
error (hence produces no reference) exactly when some additional sample
differs from the primary in bin count or at some row position in
chromosome, start, end or gene label; when every additional sample
matches positionally, no mismatch error is raised. -/
theorem combine_probes_mismatch_iff (ctx : Ctx) (cnarr1 : CNTable) (rest : List CNTable)
    (fa_fname : Option (List String)) (imr : Bool) (isFem : Option Bool)
    (skip_low fix_gc fix_edge fix_rmask : Bool) (h0 : cnarr1.size ≠ 0)
    (h1 : cnarr1.WF) (hr : ∀ x ∈ rest, x.WF) :
    (∃ e, combine_probes ctx cnarr1 rest fa_fname imr isFem skip_low fix_gc fix_edge
        fix_rmask = .error e) ↔ ∃ x ∈ rest, binsMismatch cnarr1 x := by
  rw [combine_probes, if_neg h0]
  by_cases hall : rest.all (probesMatch cnarr1) = true
  · rw [if_pos hall]
    simp only [List.all_eq_true] at hall
    constructor
    · rintro ⟨e, he⟩
      exact absurd he (by simp)
    · rintro ⟨x, hx, hm⟩
      have hf := (probesMatch_false_iff cnarr1 x h1 (hr x hx)).mpr hm
      rw [hall x hx] at hf
      cases hf
  · rw [if_neg hall]
    constructor
    · intro _
      have hex : ∃ x ∈ rest, ¬(probesMatch cnarr1 x = true) := by
        by_contra hno
        push_neg at hno
        exact hall (List.all_eq_true.mpr hno)
      obtain ⟨x, hx, hpm⟩ := hex
      exact ⟨x, hx,
        (probesMatch_false_iff cnarr1 x h1 (hr x hx)).mp (Bool.eq_false_iff.mpr hpm)⟩
    · intro _
      exact ⟨_, rfl⟩

/-- A one-bin primary sample with a raw depth column. -/
def T1 : CNTable :=
  { chromosome := ["chr1"], start := [0], «end» := [100], gene := ["g1"]
    log2 := [0], depth := some [8], gc := none }

/-- A one-bin additional sample that differs from `T1` in one start. -/
def T1bad : CNTable :=
  { chromosome := ["chr1"], start := [5], «end» := [100], gene := ["g1"]
    log2 := [0], depth := some [8], gc := none }

/-- Witness for C1: one additional sample with a single differing start
value makes the build raise the mismatch error. -/
theorem combine_probes_mismatch_iff_witness :
    ∃ e, combine_probes ctx0 T1 [T1bad] none true (some false) false false false false =
      .error e :=
  (combine_probes_mismatch_iff ctx0 T1 [T1bad] none true (some false) false false false
    false (by decide) (by decide) (by decide)).mpr ⟨T1bad, by decide, by decide⟩

lemma getD_map_range {f : Nat → ℚ} {n i : Nat} (h : i < n) :
    ((List.range n).map f).getD i 0 = f i := by
  have hlen : i < ((List.range n).map f).length := by
    simpa using h
  rw [List.getD_eq_getElem _ _ hlen, List.getElem_map, List.getElem_range]

/-- Claim C7: with exactly one input sample, each bin's pooled reference
log2 — the biweight location of the two-element column made of the flat
baseline value and that sample's corrected log2 — lies in the closed
interval between the sample's corrected value and the flat baseline,
never outside it. -/
theorem combine_probes_single_sample_pooling (ctx : Ctx) (cnarr1 : CNTable)
    (fa_fname : Option (List String)) (imr : Bool) (isFem : Option Bool)
    (skip_low fix_gc fix_edge fix_rmask : Bool) (h0 : cnarr1.size ≠ 0) (r : RefTable)
    (hr : combine_probes ctx cnarr1 [] fa_fname imr isFem skip_low fix_gc fix_edge
      fix_rmask = .ok r)
    (i : Nat) (hi : i < cnarr1.size) :
    min ((flatCoverage ctx imr cnarr1).getD i 0)
        ((correctedLog2 ctx fa_fname imr isFem skip_low fix_gc fix_edge fix_rmask
          cnarr1 cnarr1).getD i 0) ≤ r.log2.getD i 0 ∧
      r.log2.getD i 0 ≤
        max ((flatCoverage ctx imr cnarr1).getD i 0)
          ((correctedLog2 ctx fa_fname imr isFem skip_low fix_gc fix_edge fix_rmask
            cnarr1 cnarr1).getD i 0) := by
  have hall : ([] : List CNTable).all (probesMatch cnarr1) = true := List.all_nil
  rw [combine_probes, if_neg h0, if_pos hall] at hr
  injection hr with h2
  subst h2
  have hlog : (pooledReference ctx cnarr1 [] fa_fname imr isFem skip_low fix_gc fix_edge
      fix_rmask).log2 = (List.range cnarr1.size).map fun j =>
        biweight_location (poolAt (allCoverages ctx cnarr1 [] fa_fname imr isFem skip_low
          fix_gc fix_edge fix_rmask) j) := rfl
  rw [hlog, getD_map_range hi]
  have hpool : poolAt (allCoverages ctx cnarr1 [] fa_fname imr isFem skip_low fix_gc
      fix_edge fix_rmask) i =
      [(flatCoverage ctx imr cnarr1).getD i 0,
       (correctedLog2 ctx fa_fname imr isFem skip_low fix_gc fix_edge fix_rmask
         cnarr1 cnarr1).getD i 0] := rfl
  rw [hpool, biweight_location_pair]
  exact midpoint_mem_interval _ _

/-- Witness for C7 at the concrete one-sample build from `T1`. -/
theorem combine_probes_single_sample_pooling_witness :
    min ((flatCoverage ctx0 true T1).getD 0 0)
        ((correctedLog2 ctx0 none true (some false) false false false false
          T1 T1).getD 0 0) ≤
      (pooledReference ctx0 T1 [] none true (some false) false false false
        false).log2.getD 0 0 ∧
      (pooledReference ctx0 T1 [] none true (some false) false false false
        false).log2.getD 0 0 ≤
        max ((flatCoverage ctx0 true T1).getD 0 0)
          ((correctedLog2 ctx0 none true (some false) false false false false
            T1 T1).getD 0 0) :=
  combine_probes_single_sample_pooling ctx0 T1 none true (some false) false false false
    false (by decide)
    (pooledReference ctx0 T1 [] none true (some false) false false false false) rfl
    0 (by decide)

/-- Claim C3 (amended): for every input sample the per-sample depth
signal is the raw depth column when present and otherwise 2^log2 per
bin, and the reference depth pools exactly these per-sample depth
signals; the constant pseudo-sample at the flat baseline value is
prepended to the collection of per-sample corrected log2 signals pooled
into the reference log2, not to the depth collection. -/
theorem combine_probes_depth_pooling (ctx : Ctx) (cnarr1 : CNTable)
    (rest : List CNTable) (fa_fname : Option (List String)) (imr : Bool)
    (isFem : Option Bool) (skip_low fix_gc fix_edge fix_rmask : Bool)
    (h0 : cnarr1.size ≠ 0) (hall : rest.all (probesMatch cnarr1) = true) (r : RefTable)
    (hr : combine_probes ctx cnarr1 rest fa_fname imr isFem skip_low fix_gc fix_edge
      fix_rmask = .ok r)
    (i : Nat) (hi : i < cnarr1.size) :
    r.depth.getD i 0 = biweight_location ((cnarr1 :: rest).map fun t =>
      (match t.depth with
       | some d => d
       | none => t.log2.map ctx.exp2).getD i 0) ∧
    r.log2.getD i 0 = biweight_location ((flatCoverage ctx imr cnarr1).getD i 0 ::
      (cnarr1 :: rest).map fun t =>
        (correctedLog2 ctx fa_fname imr isFem skip_low fix_gc fix_edge fix_rmask
          cnarr1 t).getD i 0) := by
  rw [combine_probes, if_neg h0, if_pos hall] at hr
  injection hr with h2
  subst h2
  constructor
  · have hd : (pooledReference ctx cnarr1 rest fa_fname imr isFem skip_low fix_gc
        fix_edge fix_rmask).depth = (List.range cnarr1.size).map fun j =>
          biweight_location (poolAt (allDepths ctx cnarr1 rest) j) := rfl
    rw [hd, getD_map_range hi]
    congr 1
    simp [poolAt, allDepths, List.map_map, Function.comp, depthSignal]
  · have hl : (pooledReference ctx cnarr1 rest fa_fname imr isFem skip_low fix_gc
        fix_edge fix_rmask).log2 = (List.range cnarr1.size).map fun j =>
          biweight_location (poolAt (allCoverages ctx cnarr1 rest fa_fname imr isFem
            skip_low fix_gc fix_edge fix_rmask) j) := rfl
    rw [hl, getD_map_range hi]
    congr 1
    simp [poolAt, allCoverages, List.map_map, Function.comp]

/-- Witness for C3 (amended) at the concrete one-sample build from `T1`. -/
theorem combine_probes_depth_pooling_witness :
    (pooledReference ctx0 T1 [] none true (some false) false false false
        false).depth.getD 0 0 = biweight_location ([T1].map fun t =>
      (match t.depth with
       | some d => d
       | none => t.log2.map ctx0.exp2).getD 0 0) ∧
    (pooledReference ctx0 T1 [] none true (some false) false false false
        false).log2.getD 0 0 =
      biweight_location ((flatCoverage ctx0 true T1).getD 0 0 ::
        [T1].map fun t =>
          (correctedLog2 ctx0 none true (some false) false false false false
            T1 t).getD 0 0) :=
  combine_probes_depth_pooling ctx0 T1 [] none true (some false) false false false false
    (by decide) List.all_nil
    (pooledReference ctx0 T1 [] none true (some false) false false false false) rfl
    0 (by decide)

/-- Counterexample to claim C3 as stated: on the one-sample build from
`T1` (flat baseline 0, raw depth 8 on its only bin) the reference depth
is the biweight location of the depth signals alone, 8; prepending the
flat pseudo-sample to the depth collection, as the claim asserts, would
instead give the biweight location of [0, 8], which is 4. -/
theorem combine_probes_depth_no_flat_cex :
    combine_probes ctx0 T1 [] none true (some false) false false false false =
      .ok (pooledReference ctx0 T1 [] none true (some false) false false false false) ∧
    (pooledReference ctx0 T1 [] none true (some false) false false false
      false).depth.getD 0 0 = 8 ∧
    biweight_location ((flatCoverage ctx0 true T1).getD 0 0 ::
      (allDepths ctx0 T1 []).map fun l => l.getD 0 0) = 4 ∧
    (pooledReference ctx0 T1 [] none true (some false) false false false
        false).depth.getD 0 0 ≠
      biweight_location ((flatCoverage ctx0 true T1).getD 0 0 ::
        (allDepths ctx0 T1 []).map fun l => l.getD 0 0) := by
  have h1 : (pooledReference ctx0 T1 [] none true (some false) false false false
      false).depth.getD 0 0 = 8 := by
    have hd : (pooledReference ctx0 T1 [] none true (some false) false false false
        false).depth = (List.range T1.size).map fun j =>
          biweight_location (poolAt (allDepths ctx0 T1 []) j) := rfl
    rw [hd, getD_map_range (by decide : 0 < T1.size)]
    have hp : poolAt (allDepths ctx0 T1 []) 0 = [8] := rfl
    rw [hp, biweight_location_single]
  have hf : (flatCoverage ctx0 true T1).getD 0 0 = 0 := by
    simp [flatCoverage, T1, ctx0, expect_flat_log2]
  have h2 : biweight_location ((flatCoverage ctx0 true T1).getD 0 0 ::
      (allDepths ctx0 T1 []).map fun l => l.getD 0 0) = 4 := by
    have hd : (allDepths ctx0 T1 []).map (fun l => l.getD 0 0) = [8] := rfl
    rw [hf, hd, biweight_location_pair]
    norm_num
  refine ⟨rfl, h1, h2, ?_⟩
  rw [h1, h2]
  norm_num

/-- Modelled from the spec: `params.MIN_REF_COVERAGE`, the minimum
coverage floor used by the external bad-bin mask. -/
def MIN_REF_COVERAGE : ℚ := -5

/-- Modelled from the spec: `params.MAX_REF_SPREAD`, the spread ceiling
used by the external bad-bin mask. -/
def MAX_REF_SPREAD : ℚ := 1

/-- Modelled from the spec: the external `fix.mask_bad_bins(probes)`,
flagging bins whose log2 is extreme (below the minimum-coverage floor or
above its negation) or whose spread is excessive. -/
def mask_bad_bins (t : RefTable) : List Bool :=
  List.zipWith (fun l s =>
    decide (l < MIN_REF_COVERAGE) || decide (-MIN_REF_COVERAGE < l) ||
      decide (MAX_REF_SPREAD < s)) t.log2 t.spread

/-- One row of a reference table, as iterated by `warn_bad_probes`. -/
structure ProbeRow where
  gene : String
  chromosome : String
  start : Int
  «end» : Int
  log2 : ℚ
  spread : ℚ
  rmask : ℚ

/-- Row `i` of a reference table. -/
def RefTable.row (t : RefTable) (i : Nat) : ProbeRow :=
  { gene := t.gene.getD i "", chromosome := t.chromosome.getD i ""
    start := t.start.getD i 0, «end» := t.«end».getD i 0
    log2 := t.log2.getD i 0, spread := t.spread.getD i 0
    rmask := (t.rmask.getD []).getD i 0 }

/-- Modelled from the spec: the external `CopyNumArray.row2label`, the
position label of one bin. -/
def row2label (p : ProbeRow) : String :=
  p.chromosome ++ ":" ++ toString p.start ++ "-" ++ toString p.«end»

/-- Python `str.ljust`: pad on the right with spaces up to the width. -/
def ljust (s : String) (w : Nat) : String :=
  s ++ String.mk (List.replicate (w - s.length) ' ')

/-- Maximum of a list of naturals, 0 when the list is empty. -/
def listMax (l : List Nat) : Nat := l.foldl max 0

/-- One formatted line per failing target bin: the gene label (a ditto
marker when repeating the previous line's gene, overly long names
truncated with an ellipsis), the position label, both column-aligned,
then the numeric fields; `rmask` is shown when the table has it. -/
def badRowLines (hasRmask : Bool) (max_name_width gene_cols chrom_cols : Nat) :
    Option String → List ProbeRow → List String
  | _, [] => []
  | lastGene, p :: ps =>
    let gene := if lastGene = some p.gene then "  \"" else p.gene
    let newLast := if lastGene = some p.gene then lastGene else some p.gene
    let gene2 := if gene.length > max_name_width
      then (gene.take (max_name_width - 3)) ++ "..." else gene
    let numPart := if hasRmask
      then "  log2=" ++ toString p.log2 ++ "  spread=" ++ toString p.spread ++
        "  rmask=" ++ toString p.rmask
      else "  log2=" ++ toString p.log2 ++ "  spread=" ++ toString p.spread
    (ljust gene2 gene_cols ++ "  " ++ ljust (row2label p) chrom_cols ++ numPart) ::
      badRowLines hasRmask max_name_width gene_cols chrom_cols newLast ps

/-- Embedding of `warn_bad_probes(probes, max_name_width)`: select the
bins failing the bad-bin mask, split them into target and antitarget
groups, and emit the formatted report lines; the input table is threaded
through as explicit state, with every access a read. -/
def warn_bad_probes (probes : RefTable) (max_name_width : Nat) :
    List String × RefTable :=
  let n := probes.chromosome.length
  let mask := mask_bad_bins probes
  let badIdx := (List.range n).filter fun i => mask.getD i false
  let bad_probes := badIdx.map probes.row
  let fg_bad_probes := bad_probes.filter fun p => p.gene != "Background"
  let nTargets := probes.gene.countP fun g => g != "Background"
  let targetLines :=
    if 0 < fg_bad_probes.length then
      let bad_pct : ℚ := 100 * (fg_bad_probes.length : ℚ) / (nTargets : ℚ)
      let gene_cols := min max_name_width
        (listMax (fg_bad_probes.map fun p => p.gene.length))
      let chrom_cols := listMax (fg_bad_probes.map fun p => (row2label p).length)
      ("Targets: " ++ toString fg_bad_probes.length ++ " (" ++ toString bad_pct ++
          "%) bins failed filters:") ::
        badRowLines probes.rmask.isSome max_name_width gene_cols chrom_cols none
          fg_bad_probes
    else []
  let bg_bad_probes := bad_probes.filter fun p => p.gene == "Background"
  let nBg := probes.gene.countP fun g => g == "Background"
  let bgLines :=
    if 0 < bg_bad_probes.length then
      ["Antitargets: " ++ toString bg_bad_probes.length ++ " (" ++
        toString (100 * (bg_bad_probes.length : ℚ) / (nBg : ℚ)) ++
        "%) bins failed filters"]
    else []
  (targetLines ++ bgLines, probes)

/-- Claim C8: `warn_bad_probes` is presentation-only: for every input
reference table, the table after the call is exactly the table before
it; all its columns and metadata are unchanged. -/
theorem warn_bad_probes_pure (probes : RefTable) (max_name_width : Nat) :
    (warn_bad_probes probes max_name_width).2 = probes := rfl
